import Mathlib

/-!
Verification of the Moon-project shopping-cart core: the cart state machine
of src/contexts/CartContext.tsx, the versioned localStorage utility of
src/utils/storage.ts, and the field validator of the form hook
src/hooks/useForm.ts.  Each definition below is a shallow embedding of the
corresponding TypeScript source.  JavaScript numbers are modelled as Int
(every numeric literal occurring in the verified claims is an integer);
timestamps produced by Date.now() are passed in as an explicit `now`
argument.
-/

/-! ## Data model (src/types/product.ts, src/types/cart.ts) -/

inductive ProductCategory where
  | shilajit
  | saffron
  | dryFruits
deriving DecidableEq

structure Product where
  id : String
  name : String
  category : ProductCategory
  description : String
  price : Int
  originalPrice : Option Int
  image : String
  featured : Bool
  inStock : Bool
  weight : String
  benefits : List String
  tags : List String
deriving DecidableEq

structure CartItem where
  product : Product
  quantity : Int
  addedAt : Int
deriving DecidableEq

structure Cart where
  items : List CartItem
  totalItems : Int
  totalPrice : Int
deriving DecidableEq

inductive CartAction where
  | addItem (product : Product) (quantity : Int)
  | removeItem (productId : String)
  | updateQuantity (productId : String) (quantity : Int)
  | clearCart
  | loadCart (payload : Cart)
  | optimisticAdd (product : Product) (quantity : Int)
  | rollbackAdd (productId : String)
deriving DecidableEq

/-! ## JavaScript array helpers

Array.prototype.findIndex returns the index of the first element
satisfying the predicate, or -1; the callbacks of map and filter receive
the element's index as second argument.  These helpers mirror that,
with the running index made explicit. -/

def findIndexAux (p : α → Bool) (i : Int) : List α → Int
  | [] => -1
  | x :: xs => if p x then i else findIndexAux p (i + 1) xs

def findIndexJs (p : α → Bool) (l : List α) : Int :=
  findIndexAux p 0 l

def jsMapIdxAux (f : Int → α → β) (i : Int) : List α → List β
  | [] => []
  | x :: xs => f i x :: jsMapIdxAux f (i + 1) xs

def jsMapIdx (f : Int → α → β) (l : List α) : List β :=
  jsMapIdxAux f 0 l

def jsFilterIdxAux (p : Int → α → Bool) (i : Int) : List α → List α
  | [] => []
  | x :: xs => if p i x then x :: jsFilterIdxAux p (i + 1) xs else jsFilterIdxAux p (i + 1) xs

def jsFilterIdx (p : Int → α → Bool) (l : List α) : List α :=
  jsFilterIdxAux p 0 l

/-! ## Cart reducer (src/contexts/CartContext.tsx) -/

def initialCart : Cart :=
  { items := [], totalItems := 0, totalPrice := 0 }

def calculateCartTotals (cart : Cart) : Cart :=
  let totalItems := cart.items.foldl (fun sum item => sum + item.quantity) 0
  let totalPrice := cart.items.foldl (fun sum item => sum + item.product.price * item.quantity) 0
  { cart with totalItems := totalItems, totalPrice := totalPrice }

/-- The REMOVE_ITEM branch of cartReducer.  The source's UPDATE_QUANTITY
branch delegates to this same branch through a recursive call
`cartReducer(state, REMOVE_ITEM)`; factoring the branch out keeps the
Lean definition structurally recursive while computing identically. -/
def removeItemFrom (state : Cart) (productId : String) : Cart :=
  let newItems := state.items.filter (fun item => !(item.product.id == productId))
  calculateCartTotals { state with items := newItems }

def cartReducer (now : Int) (state : Cart) (action : CartAction) : Cart :=
  match action with
  | .addItem product quantity =>
    let existingItemIndex := findIndexJs (fun item => item.product.id == product.id) state.items
    let newItems :=
      if existingItemIndex > -1 then
        jsMapIdx (fun index item =>
          if index = existingItemIndex then { item with quantity := item.quantity + quantity }
          else item) state.items
      else
        state.items ++ [{ product := product, quantity := quantity, addedAt := now }]
    calculateCartTotals { state with items := newItems }
  | .optimisticAdd product quantity =>
    let existingItemIndex := findIndexJs (fun item => item.product.id == product.id) state.items
    let newItems :=
      if existingItemIndex > -1 then
        jsMapIdx (fun index item =>
          if index = existingItemIndex then { item with quantity := item.quantity + quantity }
          else item) state.items
      else
        state.items ++ [{ product := product, quantity := quantity, addedAt := now }]
    calculateCartTotals { state with items := newItems }
  | .rollbackAdd productId =>
    let itemIndex := findIndexJs (fun item => item.product.id == productId) state.items
    if itemIndex = -1 then state
    else
      calculateCartTotals
        { state with items := jsFilterIdx (fun index _ => !(index = itemIndex)) state.items }
  | .removeItem productId => removeItemFrom state productId
  | .updateQuantity productId quantity =>
    if quantity ≤ 0 then
      removeItemFrom state productId
    else
      calculateCartTotals
        { state with
          items := state.items.map (fun item =>
            if item.product.id == productId then { item with quantity := quantity } else item) }
  | .clearCart => initialCart
  | .loadCart payload => payload

/-- Apply a sequence of actions; each step carries the Date.now() value
observed when the reducer ran it. -/
def reduceSeq (c : Cart) (steps : List (Int × CartAction)) : Cart :=
  steps.foldl (fun s step => cartReducer step.1 s step.2) c

def CartAction.isLoad : CartAction → Bool
  | .loadCart _ => true
  | _ => false

/-- The hydration effect of CartProvider: on mount, LOAD_CART is
dispatched exactly when the stored cart has at least one item. -/
def hydrateCart (storedCart : Cart) (state : Cart) : Cart :=
  if storedCart.items.length > 0 then cartReducer 0 state (.loadCart storedCart) else state

/-! ## Specification-side predicates for the cart -/

def sumQuantities (items : List CartItem) : Int :=
  (items.map (fun it => it.quantity)).sum

def sumPrices (items : List CartItem) : Int :=
  (items.map (fun it => it.quantity * it.product.price)).sum

/-- The derived-totals invariant of the spec's data model. -/
def totalsInvariant (c : Cart) : Prop :=
  c.totalItems = sumQuantities c.items ∧ c.totalPrice = sumPrices c.items

instance (c : Cart) : Decidable (totalsInvariant c) := by
  unfold totalsInvariant; infer_instance

/-- The full data-model invariants of spec section 3: positive quantities,
at most one line per product id, and correct derived totals. -/
def cartWf (c : Cart) : Prop :=
  (∀ it ∈ c.items, 0 < it.quantity) ∧
  (c.items.map (fun it => it.product.id)).Nodup ∧
  totalsInvariant c

instance (c : Cart) : Decidable (cartWf c) := by
  unfold cartWf; infer_instance

/-! ## Versioned localStorage utility (src/utils/storage.ts)

The browser store maps string keys to string values, and the utility
only ever inspects a stored string through safeJsonParse (JSON.parse
wrapped with a fallback).  A stored string is therefore modelled by its
parse outcome: `Stored.json j` stands for any string whose JSON.parse
succeeds with the value `j` (such strings are never empty), and
`Stored.corrupt s` stands for the literal string `s` failing to parse.
JSON values are modelled by the `Json` inductive with integer numerics
(every number appearing in the verified claims is an integer).
JavaScript exceptions thrown during migration are modelled with
`Except Unit`; storage-quota failures of setItem are outside the model
(the modelled store never rejects a write). -/

inductive Json where
  | null : Json
  | bool : Bool → Json
  | num : Int → Json
  | str : String → Json
  | arr : List Json → Json
  | obj : List (String × Json) → Json

inductive Stored where
  | json (j : Json)
  | corrupt (s : String)

abbrev Store : Type := List (String × Stored)

def getItem : Store → String → Option Stored
  | [], _ => none
  | (k, v) :: rest, key => if k = key then some v else getItem rest key

def setItem : Store → String → Stored → Store
  | [], key, v => [(key, v)]
  | (k, w) :: rest, key, v =>
    if k = key then (k, v) :: rest else (k, w) :: setItem rest key v

/-- JavaScript truthiness of a defined value. -/
def jsTruthy : Json → Bool
  | .null => false
  | .bool b => b
  | .num n => !(n == 0)
  | .str s => !(s == "")
  | .arr _ => true
  | .obj _ => true

/-- Truthiness where `none` stands for JavaScript's undefined. -/
def jsTruthyOpt : Option Json → Bool
  | none => false
  | some j => jsTruthy j

def lookupField : List (String × Json) → String → Option Json
  | [], _ => none
  | (k, v) :: rest, name => if k = name then some v else lookupField rest name

/-- Property access `j.f` on a defined non-null value: the field of an
object (or undefined when absent), undefined on every other value. -/
def jsonField : Json → String → Option Json
  | .obj fields, name => lookupField fields name
  | _, _ => none

/-- The JavaScript object literal `{...data, f: v}` for an object `data`:
the field keeps its original position, its value is replaced; a fresh
field is appended. -/
def objSet : List (String × Json) → String → Json → List (String × Json)
  | [], name, v => [(name, v)]
  | (k, w) :: rest, name, v =>
    if k = name then (k, v) :: rest else (k, w) :: objSet rest name v

def STORAGE_VERSION : Int := 1

def VERSION_KEY : String := "monnn_storage_version"

/-- The registered migration for source version 0: if `data.cart` is
truthy and `data.cart.items` is falsy, wrap the legacy cart value in the
current cart shape; otherwise pass data through.  Accessing `.cart` on
null or undefined throws a TypeError, modelled by `.error`. -/
def migration0 (data : Json) : Except Unit Json :=
  match data with
  | .null => .error ()
  | .obj fields =>
    match lookupField fields "cart" with
    | some c =>
      if jsTruthy c && !(jsTruthyOpt (jsonField c "items")) then
        .ok (.obj (objSet fields "cart"
          (.obj [("items", c), ("totalItems", .num 0), ("totalPrice", .num 0)])))
      else .ok data
    | none => .ok data
  | _ => .ok data

/-- The migrations table: only source version 0 has an entry. -/
def migrations (v : Int) : Option (Json → Except Unit Json) :=
  if v = 0 then some migration0 else none

/-- The body of migrateData's loop `for (let v = fromVersion; v <
STORAGE_VERSION; v++)`, counting the remaining iterations down. -/
def migrateGo : Json → Int → Nat → Except Unit Json
  | d, _, 0 => .ok d
  | d, v, k + 1 =>
    match migrations v with
    | some f =>
      match f d with
      | .ok d2 => migrateGo d2 (v + 1) k
      | .error e => .error e
    | none => migrateGo d (v + 1) k

def migrateData (data : Json) (fromVersion : Int) : Except Unit Json :=
  migrateGo data fromVersion (STORAGE_VERSION - fromVersion).toNat

def envelopeJson (version : Int) (data : Json) (timestamp : Int) : Json :=
  .obj [("version", .num version), ("data", data), ("timestamp", .num timestamp)]

/-- saveToStorage: write the envelope under `key`, then record the
current schema version under VERSION_KEY (the string "1", which parses
as the number 1). -/
def saveToStorage (store : Store) (key : String) (data : Json) (now : Int) : Store :=
  setItem (setItem store key (.json (envelopeJson STORAGE_VERSION data now)))
    VERSION_KEY (.json (.num STORAGE_VERSION))

/-- JavaScript's `!item` test on the raw stored string: null (absent)
or the empty string are falsy.  A string that parses as JSON is never
empty. -/
def storedFalsy : Stored → Bool
  | .json _ => false
  | .corrupt s => s == ""

/-- The comparison `storageData.version < STORAGE_VERSION`: numbers
compare numerically, null coerces to 0, booleans to 0/1; undefined is
NaN and compares false.  Numeric-string and array coercions are not
modelled (no claim involves them). -/
def jsVersionLt (v : Option Json) (n : Int) : Bool :=
  match v with
  | some (.num m) => decide (m < n)
  | some .null => decide (0 < n)
  | some (.bool b) => decide ((if b then (1 : Int) else 0) < n)
  | _ => false

/-- The version value handed to migrateData once the `<` test succeeded
(so it is one of the numeric coercions above). -/
def jsVersionToInt : Option Json → Int
  | some (.num m) => m
  | some .null => 0
  | some (.bool b) => if b then 1 else 0
  | _ => 0

/-- loadFromStorage.  The try/catch around the body turns every thrown
TypeError (property access on null or undefined inside the version
check or the migration) into `return defaultValue`; those paths are the
`(some defaultValue, store)` results below.  The first component is the
returned value (`none` models JavaScript's undefined), the second the
store after the call (migration re-persists). -/
def loadFromStorage (store : Store) (key : String) (defaultValue : Json) (now : Int) :
    Option Json × Store :=
  match getItem store key with
  | none => (some defaultValue, store)
  | some item =>
    if storedFalsy item then (some defaultValue, store)
    else
      let parsed : Json :=
        match item with
        | .json j => j
        | .corrupt _ => envelopeJson 0 defaultValue now
      match parsed with
      | .null => (some defaultValue, store)
      | p =>
        let ver := jsonField p "version"
        if jsVersionLt ver STORAGE_VERSION then
          match jsonField p "data" with
          | none => (some defaultValue, store)
          | some d =>
            match migrateData d (jsVersionToInt ver) with
            | .error _ => (some defaultValue, store)
            | .ok migrated => (some migrated, saveToStorage store key migrated now)
        else (jsonField p "data", store)

/-! ## Form validation (src/hooks/useForm.ts) -/

structure ValidationRule (T : Type) where
  validate : T → Bool
  message : String

structure FieldConfig (T : Type) where
  initialValue : T
  rules : Option (List (ValidationRule T))

/-- The for-loop of validateField: return the first failing rule's
message. -/
def firstFailure (value : T) : List (ValidationRule T) → Option String
  | [] => none
  | r :: rs => if !(r.validate value) then some r.message else firstFailure value rs

def validateField (cfg : FieldConfig T) (value : T) : Option String :=
  match cfg.rules with
  | none => none
  | some rules => firstFailure value rules

/-- The value migration0 produces from a legacy object whose cart field
held the raw item array: the array is wrapped in the current cart shape
with zeroed totals, replacing the cart field in place. -/
def upgradeLegacyCart (fields : List (String × Json)) (l : List Json) : Json :=
  .obj (objSet fields "cart"
    (.obj [("items", .arr l), ("totalItems", .num 0), ("totalPrice", .num 0)]))

/-! ## Sample data for concrete witnesses -/

def ruleNonNeg : ValidationRule Int :=
  { validate := fun n => decide (0 ≤ n), message := "must not be negative" }

def ruleBig : ValidationRule Int :=
  { validate := fun n => decide (10 ≤ n), message := "too small" }

def sampleFieldConfig : FieldConfig Int :=
  { initialValue := 0, rules := some [ruleNonNeg, ruleBig] }

def sampleProductA : Product :=
  { id := "p1", name := "Shilajit", category := .shilajit, description := "",
    price := 100, originalPrice := none, image := "", featured := false,
    inStock := true, weight := "20g", benefits := [], tags := [] }

def sampleProductB : Product :=
  { id := "p2", name := "Saffron", category := .saffron, description := "",
    price := 50, originalPrice := none, image := "", featured := false,
    inStock := true, weight := "1g", benefits := [], tags := [] }

/-! ## Helper lemmas -/

theorem foldl_add_eq_sum (f : α → Int) (l : List α) (a : Int) :
    l.foldl (fun s x => s + f x) a = a + (l.map f).sum := by
  induction l generalizing a with
  | nil => simp
  | cons x xs ih => simp [ih, add_assoc]

theorem foldl_quantities (l : List CartItem) :
    l.foldl (fun sum item => sum + item.quantity) 0 = sumQuantities l := by
  rw [sumQuantities, foldl_add_eq_sum (fun it => it.quantity) l 0, zero_add]

theorem foldl_prices (l : List CartItem) :
    l.foldl (fun sum item => sum + item.product.price * item.quantity) 0 = sumPrices l := by
  rw [foldl_add_eq_sum (fun it => it.product.price * it.quantity) l 0, zero_add, sumPrices]
  exact congrArg List.sum (List.map_congr_left (fun it _ => mul_comm _ _))

theorem totalsInvariant_calculate (c : Cart) : totalsInvariant (calculateCartTotals c) :=
  ⟨foldl_quantities c.items, foldl_prices c.items⟩

theorem calculateCartTotals_of_invariant {c : Cart} (h : totalsInvariant c) :
    calculateCartTotals c = c := by
  obtain ⟨h1, h2⟩ := h
  cases c with
  | mk items ti tp =>
    simp only [totalsInvariant] at h1 h2
    simp [calculateCartTotals, foldl_quantities, foldl_prices, h1, h2]

theorem cartReducer_preserves_totals (now : Int) (s : Cart) (a : CartAction)
    (ha : a.isLoad = false) (hs : totalsInvariant s) :
    totalsInvariant (cartReducer now s a) := by
  cases a with
  | addItem p q => exact totalsInvariant_calculate _
  | optimisticAdd p q => exact totalsInvariant_calculate _
  | removeItem pid => exact totalsInvariant_calculate _
  | rollbackAdd pid =>
    simp only [cartReducer]
    split
    · exact hs
    · exact totalsInvariant_calculate _
  | updateQuantity pid q =>
    simp only [cartReducer]
    split
    · exact totalsInvariant_calculate _
    · exact totalsInvariant_calculate _
  | clearCart => exact ⟨rfl, rfl⟩
  | loadCart c => simp [CartAction.isLoad] at ha

theorem reduceSeq_preserves_totals (steps : List (Int × CartAction)) (c : Cart)
    (hc : totalsInvariant c) (h : ∀ s ∈ steps, s.2.isLoad = false) :
    totalsInvariant (reduceSeq c steps) := by
  induction steps generalizing c with
  | nil => exact hc
  | cons st rest ih =>
    exact ih _ (cartReducer_preserves_totals _ _ _ (h st (by simp)) hc)
      (fun s hs => h s (by simp [hs]))

theorem findIndexAux_not_found (p : α → Bool) (l : List α) (i : Int)
    (h : ∀ x ∈ l, p x = false) : findIndexAux p i l = -1 := by
  induction l generalizing i with
  | nil => rfl
  | cons x xs ih =>
    have hx := h x (by simp)
    simp [findIndexAux, hx, ih (i + 1) (fun y hy => h y (by simp [hy]))]

theorem findIndexAux_first (p : α → Bool) (pre post : List α) (it : α) (i : Int)
    (hpre : ∀ x ∈ pre, p x = false) (hit : p it = true) :
    findIndexAux p i (pre ++ it :: post) = i + pre.length := by
  induction pre generalizing i with
  | nil => simp [findIndexAux, hit]
  | cons x xs ih =>
    have hx := hpre x (by simp)
    rw [List.cons_append, findIndexAux, hx]
    simp only [Bool.false_eq_true, if_false]
    rw [ih (i + 1) (fun y hy => hpre y (by simp [hy]))]
    simp only [List.length_cons]
    push_cast
    ring

theorem jsMapIdxAux_noop_of_lt (g : α → α) (k i : Int) (l : List α) (h : k < i) :
    jsMapIdxAux (fun idx item => if idx = k then g item else item) i l = l := by
  induction l generalizing i with
  | nil => rfl
  | cons x xs ih =>
    rw [jsMapIdxAux, if_neg (by omega), ih (i + 1) (by omega)]

theorem jsMapIdxAux_update (g : α → α) (pre post : List α) (it : α) (i k : Int)
    (hk : k = i + pre.length) :
    jsMapIdxAux (fun idx item => if idx = k then g item else item) i (pre ++ it :: post) =
      pre ++ g it :: post := by
  induction pre generalizing i with
  | nil =>
    simp only [List.length_nil, Nat.cast_zero, add_zero] at hk
    rw [List.nil_append, jsMapIdxAux, if_pos (by omega),
      jsMapIdxAux_noop_of_lt g k (i + 1) post (by omega), List.nil_append]
  | cons x xs ih =>
    simp only [List.length_cons] at hk
    push_cast at hk
    rw [List.cons_append, jsMapIdxAux, if_neg (by omega),
      ih (i + 1) (by omega), List.cons_append]

theorem jsFilterIdxAux_noop_of_lt (k i : Int) (l : List α) (h : k < i) :
    jsFilterIdxAux (fun idx _ => !(idx = k)) i l = l := by
  induction l generalizing i with
  | nil => rfl
  | cons x xs ih =>
    have hne : ¬ (i = k) := by omega
    rw [jsFilterIdxAux, if_pos (by simp [hne]), ih (i + 1) (by omega)]

theorem jsFilterIdxAux_remove (pre post : List α) (it : α) (i k : Int)
    (hk : k = i + pre.length) :
    jsFilterIdxAux (fun idx _ => !(idx = k)) i (pre ++ it :: post) = pre ++ post := by
  induction pre generalizing i with
  | nil =>
    simp only [List.length_nil, Nat.cast_zero, add_zero] at hk
    rw [List.nil_append, jsFilterIdxAux, if_neg (by simp [hk.symm]),
      jsFilterIdxAux_noop_of_lt k (i + 1) post (by omega), List.nil_append]
  | cons x xs ih =>
    simp only [List.length_cons] at hk
    push_cast at hk
    have hne : ¬ (i = k) := by omega
    rw [List.cons_append, jsFilterIdxAux, if_pos (by simp [hne]),
      ih (i + 1) (by omega), List.cons_append]

theorem map_noop {f : α → α} {l : List α} (h : ∀ x ∈ l, f x = x) : l.map f = l := by
  induction l with
  | nil => rfl
  | cons x xs ih => simp [h x (by simp), ih (fun y hy => h y (by simp [hy]))]

theorem calculateCartTotals_items (c : Cart) : (calculateCartTotals c).items = c.items := rfl

theorem calculateCartTotals_mk (items : List CartItem) (ti tp : Int) :
    calculateCartTotals ⟨items, ti, tp⟩ = ⟨items, sumQuantities items, sumPrices items⟩ := by
  simp [calculateCartTotals, foldl_quantities, foldl_prices]

theorem cartReducer_rollback_noop (now : Int) (state : Cart) (pid : String)
    (hno : ∀ x ∈ state.items, x.product.id ≠ pid) :
    cartReducer now state (.rollbackAdd pid) = state := by
  have hidx : findIndexAux (fun x => x.product.id == pid) 0 state.items = -1 :=
    findIndexAux_not_found _ _ _ (fun x hx => by rw [beq_eq_false_iff_ne]; exact hno x hx)
  simp [cartReducer, findIndexJs, hidx]

theorem cartReducer_rollback_found (now : Int) (state : Cart) (pid : String)
    (pre post : List CartItem) (it : CartItem) (hitems : state.items = pre ++ it :: post)
    (hid : it.product.id = pid) (hpre : ∀ x ∈ pre, x.product.id ≠ pid) :
    cartReducer now state (.rollbackAdd pid) =
      calculateCartTotals { state with items := pre ++ post } := by
  have hidx : findIndexAux (fun x => x.product.id == pid) 0 state.items =
      0 + (pre.length : Int) := by
    rw [hitems]
    exact findIndexAux_first _ _ _ _ _
      (fun x hx => by rw [beq_eq_false_iff_ne]; exact hpre x hx) (by simp [hid])
  simp only [cartReducer, findIndexJs, jsFilterIdx, hidx]
  rw [if_neg (by omega), hitems,
    jsFilterIdxAux_remove pre post it 0 (0 + (pre.length : Int)) rfl]

theorem cartReducer_optimistic_append (now : Int) (state : Cart) (product : Product)
    (qty : Int) (hno : ∀ x ∈ state.items, x.product.id ≠ product.id) :
    cartReducer now state (.optimisticAdd product qty) =
      calculateCartTotals { state with
        items := state.items ++ [{ product := product, quantity := qty, addedAt := now }] } := by
  have hidx : findIndexAux (fun x => x.product.id == product.id) 0 state.items = -1 :=
    findIndexAux_not_found _ _ _ (fun x hx => by rw [beq_eq_false_iff_ne]; exact hno x hx)
  simp only [cartReducer, findIndexJs, hidx]
  norm_num

/-! ## Claim theorems -/

/-- Claim C1: starting from the empty cart, after every sequence of
AddItem, OptimisticAdd, RollbackAdd, RemoveItem, UpdateQuantity and
ClearCart actions (every non-LoadCart action), the resulting cart's
totalItems equals the sum of the item quantities and its totalPrice
equals the sum of quantity times price over the items.  Every prefix of
such a sequence is itself such a sequence, so the invariant holds after
each action. -/
theorem c1_totals_invariant_all_sequences (steps : List (Int × CartAction))
    (h : ∀ s ∈ steps, s.2.isLoad = false) :
    totalsInvariant (reduceSeq initialCart steps) :=
  reduceSeq_preserves_totals steps initialCart ⟨rfl, rfl⟩ h

theorem c1_witness :
    totalsInvariant (reduceSeq initialCart
      [(0, .addItem sampleProductA 2), (1, .optimisticAdd sampleProductB 1),
       (2, .updateQuantity "p1" 5), (3, .rollbackAdd "p2"), (4, .removeItem "p1"),
       (5, .clearCart), (6, .addItem sampleProductA 3)]) :=
  c1_totals_invariant_all_sequences _ (by decide)

/-- Claim C2: ADD_ITEM with quantity at least 1 increments the quantity
of the line whose product id already matches, keeping it at its
first-insertion index with every other line untouched, and otherwise
appends a fresh line at the end; consequently adding product A, then B,
then A again from the empty cart yields one line for A carrying the sum
of both quantities at index 0 and one line for B. -/
theorem c2_add_item_merge_or_append :
    (∀ (now : Int) (state : Cart) (product : Product) (qty : Int), 1 ≤ qty →
      ((∀ x ∈ state.items, x.product.id ≠ product.id) →
        cartReducer now state (.addItem product qty) =
          calculateCartTotals { state with
            items := state.items ++ [{ product := product, quantity := qty, addedAt := now }] }) ∧
      (∀ pre it post, state.items = pre ++ it :: post → it.product.id = product.id →
        (∀ x ∈ pre, x.product.id ≠ product.id) →
        cartReducer now state (.addItem product qty) =
          calculateCartTotals { state with
            items := pre ++ { it with quantity := it.quantity + qty } :: post })) ∧
    (∀ (A B : Product) (qa qb qa2 t1 t2 t3 : Int), A.id ≠ B.id →
      1 ≤ qa → 1 ≤ qb → 1 ≤ qa2 →
      (reduceSeq initialCart
        [(t1, .addItem A qa), (t2, .addItem B qb), (t3, .addItem A qa2)]).items =
        [{ product := A, quantity := qa + qa2, addedAt := t1 },
         { product := B, quantity := qb, addedAt := t2 }]) := by
  constructor
  · intro now state product qty _
    constructor
    · intro hno
      have hidx : findIndexAux (fun x => x.product.id == product.id) 0 state.items = -1 :=
        findIndexAux_not_found _ _ _
          (fun x hx => by rw [beq_eq_false_iff_ne]; exact hno x hx)
      simp only [cartReducer, findIndexJs, hidx]
      norm_num
    · intro pre it post hitems hid hpre
      have hidx : findIndexAux (fun x => x.product.id == product.id) 0 state.items =
          0 + (pre.length : Int) := by
        rw [hitems]
        exact findIndexAux_first _ _ _ _ _
          (fun x hx => by rw [beq_eq_false_iff_ne]; exact hpre x hx) (by simp [hid])
      simp only [cartReducer, findIndexJs, jsMapIdx, hidx]
      rw [if_pos (by omega), hitems,
        jsMapIdxAux_update (fun x => { x with quantity := x.quantity + qty }) pre post it 0
          (0 + (pre.length : Int)) rfl]
  · intro A B qa qb qa2 t1 t2 t3 hAB _ _ _
    have hab : (A.id == B.id) = false := by rw [beq_eq_false_iff_ne]; exact hAB
    have haa : (A.id == A.id) = true := by simp
    simp [reduceSeq, cartReducer, findIndexJs, findIndexAux, jsMapIdx, jsMapIdxAux,
      calculateCartTotals, initialCart, hab, haa]

theorem c2_witness :
    (reduceSeq initialCart
      [(10, .addItem sampleProductA 2), (11, .addItem sampleProductB 1),
       (12, .addItem sampleProductA 3)]).items =
      [{ product := sampleProductA, quantity := 5, addedAt := 10 },
       { product := sampleProductB, quantity := 1, addedAt := 11 }] :=
  c2_add_item_merge_or_append.2 sampleProductA sampleProductB 2 1 3 10 11 12
    (by decide) (by decide) (by decide) (by decide)

/-- Claim C3, counterexample to the literal statement: on a cart whose
stored totals disagree with its item list (reachable through LOAD_CART),
UPDATE_QUANTITY for an absent product id is not a no-op, because the
totals are recomputed from the items. -/
theorem c3_counterexample :
    cartReducer 0 { items := [], totalItems := 1, totalPrice := 0 }
        (.updateQuantity "p1" 5) ≠
      { items := [], totalItems := 1, totalPrice := 0 } := by decide

/-- Claim C3 (amended): on every cart satisfying the data-model
invariants (positive quantities, at most one line per product id,
derived totals), UPDATE_QUANTITY with qty at most 0 is exactly
REMOVE_ITEM; with qty at least 1 it sets the matching line's quantity
to qty absolutely and recomputes totals; it leaves the cart unchanged
when no line matches; and the resulting cart never contains a line
with non-positive quantity. -/
theorem c3_update_quantity_amended (now : Int) (state : Cart) (pid : String) (qty : Int)
    (hw : cartWf state) :
    (qty ≤ 0 → cartReducer now state (.updateQuantity pid qty) =
      cartReducer now state (.removeItem pid)) ∧
    (1 ≤ qty → ∀ pre it post, state.items = pre ++ it :: post → it.product.id = pid →
      cartReducer now state (.updateQuantity pid qty) =
        calculateCartTotals { state with
          items := pre ++ { it with quantity := qty } :: post }) ∧
    ((∀ x ∈ state.items, x.product.id ≠ pid) →
      cartReducer now state (.updateQuantity pid qty) = state) ∧
    (∀ x ∈ (cartReducer now state (.updateQuantity pid qty)).items, 0 < x.quantity) := by
  refine ⟨?_, ?_, ?_, ?_⟩
  · intro hq
    simp only [cartReducer]
    rw [if_pos hq]
  · intro hq pre it post hitems hid
    have hnd := hw.2.1
    rw [hitems, List.map_append, List.map_cons] at hnd
    have hpre2 : ∀ x ∈ pre, (x.product.id == pid) = false := by
      intro x hx
      rw [beq_eq_false_iff_ne]
      intro hc
      exact List.disjoint_of_nodup_append hnd
        (List.mem_map_of_mem _ hx) (by simp [hc, hid])
    have hpost2 : ∀ x ∈ post, (x.product.id == pid) = false := by
      intro x hx
      rw [beq_eq_false_iff_ne]
      intro hc
      have h2 := (List.nodup_cons.mp (List.Nodup.of_append_right hnd)).1
      exact h2 (by rw [hid, ← hc]; exact List.mem_map_of_mem _ hx)
    have hmap : state.items.map
        (fun x => if x.product.id == pid then { x with quantity := qty } else x) =
        pre ++ { it with quantity := qty } :: post := by
      rw [hitems, List.map_append, List.map_cons,
        map_noop (fun x hx => by simp [hpre2 x hx]),
        map_noop (fun x hx => by simp [hpost2 x hx])]
      simp [hid]
    simp only [cartReducer]
    rw [if_neg (by omega), hmap]
  · intro hno
    have hflt : state.items.filter (fun x => !(x.product.id == pid)) = state.items :=
      List.filter_eq_self.mpr (fun x hx => by
        simp [show (x.product.id == pid) = false from by
          rw [beq_eq_false_iff_ne]; exact hno x hx])
    have hmap : state.items.map
        (fun x => if x.product.id == pid then { x with quantity := qty } else x) =
        state.items :=
      map_noop (fun x hx => by
        simp [show (x.product.id == pid) = false from by
          rw [beq_eq_false_iff_ne]; exact hno x hx])
    simp only [cartReducer]
    split
    · rw [removeItemFrom, hflt]
      exact calculateCartTotals_of_invariant hw.2.2
    · rw [hmap]
      exact calculateCartTotals_of_invariant hw.2.2
  · intro x hx
    rcases le_or_lt qty 0 with hq | hq
    · simp only [cartReducer] at hx
      rw [if_pos hq, removeItemFrom] at hx
      rw [calculateCartTotals_items] at hx
      exact hw.1 x (List.mem_of_mem_filter hx)
    · simp only [cartReducer] at hx
      rw [if_neg (by omega)] at hx
      rw [calculateCartTotals_items] at hx
      rcases List.mem_map.mp hx with ⟨y, hy, hxy⟩
      by_cases hc : (y.product.id == pid) = true
      · rw [← hxy]
        simp only [hc, if_true]
        omega
      · rw [← hxy]
        simp only [Bool.not_eq_true] at hc
        simp only [hc, Bool.false_eq_true, if_false]
        exact hw.1 y hy

theorem c3_witness :
    cartReducer 0 { items := [{ product := sampleProductA, quantity := 2, addedAt := 0 }],
                    totalItems := 2, totalPrice := 200 } (.updateQuantity "p1" 7) =
      calculateCartTotals
        { items := [{ product := sampleProductA, quantity := 7, addedAt := 0 }],
          totalItems := 2, totalPrice := 200 } :=
  (c3_update_quantity_amended 0 _ "p1" 7 (by decide)).2.1 (by decide)
    [] { product := sampleProductA, quantity := 2, addedAt := 0 } [] rfl rfl

/-- Claim C4, counterexample to the literal statement: on a cart whose
stored totals disagree with its item list (reachable through LOAD_CART),
RollbackAdd after OptimisticAdd does not return the cart to its pre-add
state, because the rollback recomputes the totals from the items. -/
theorem c4_counterexample :
    reduceSeq { items := [], totalItems := 1, totalPrice := 0 }
        [(0, .optimisticAdd sampleProductA 2), (1, .rollbackAdd "p1")] ≠
      { items := [], totalItems := 1, totalPrice := 0 } := by decide

/-- Claim C4 (amended): ROLLBACK_ADD removes the first line whose
product id matches entirely, whatever its quantity, and recomputes
totals; it leaves the cart unchanged when no line matches; and after
OptimisticAdd of a product absent from a cart whose stored totals
satisfy the totals invariant, RollbackAdd of that product id returns
the cart to its exact pre-add state. -/
theorem c4_rollback_amended :
    (∀ (now : Int) (state : Cart) (pid : String),
      ((∀ x ∈ state.items, x.product.id ≠ pid) →
        cartReducer now state (.rollbackAdd pid) = state) ∧
      (∀ pre it post, state.items = pre ++ it :: post → it.product.id = pid →
        (∀ x ∈ pre, x.product.id ≠ pid) →
        cartReducer now state (.rollbackAdd pid) =
          calculateCartTotals { state with items := pre ++ post })) ∧
    (∀ (state : Cart) (P : Product) (q t1 t2 : Int), totalsInvariant state →
      (∀ x ∈ state.items, x.product.id ≠ P.id) →
      reduceSeq state [(t1, .optimisticAdd P q), (t2, .rollbackAdd P.id)] = state) := by
  constructor
  · intro now state pid
    exact ⟨cartReducer_rollback_noop now state pid,
      fun pre it post hitems hid hpre =>
        cartReducer_rollback_found now state pid pre post it hitems hid hpre⟩
  · intro state P q t1 t2 hinv hno
    show cartReducer t2 (cartReducer t1 state (.optimisticAdd P q)) (.rollbackAdd P.id) = state
    rw [cartReducer_optimistic_append t1 state P q hno]
    rw [cartReducer_rollback_found t2 _ P.id state.items []
      { product := P, quantity := q, addedAt := t1 } (by rw [calculateCartTotals_items]) rfl hno]
    cases state with
    | mk items ti tp =>
      obtain ⟨h1, h2⟩ := hinv
      simp only [totalsInvariant] at h1 h2
      simp [calculateCartTotals_mk, h1, h2]

theorem c4_witness :
    reduceSeq initialCart
      [(3, .optimisticAdd sampleProductA 2), (4, .rollbackAdd sampleProductA.id)] =
      initialCart :=
  c4_rollback_amended.2 initialCart sampleProductA 2 3 4 (by decide) (by decide)

/-- Claim C5: OPTIMISTIC_ADD and ADD_ITEM are the same transition: for
every state, product, quantity and timestamp the reducer produces
identical carts for the two actions. -/
theorem c5_optimistic_add_equals_add_item (now : Int) (state : Cart)
    (product : Product) (quantity : Int) :
    cartReducer now state (.optimisticAdd product quantity) =
      cartReducer now state (.addItem product quantity) := rfl

/-- Claim C10: LOAD_CART returns the payload verbatim, the hydration
effect hands the stored cart to LOAD_CART whenever it has items, and a
payload whose stored totals disagree with its item list therefore
produces a state that violates the totals invariant (exhibited on a
concrete cart whose totalItems field is 99 while its single item has
quantity 2). -/
theorem c10_load_cart_verbatim :
    (∀ now state payload, cartReducer now state (.loadCart payload) = payload) ∧
    (∀ storedCart state, storedCart.items.length > 0 →
      hydrateCart storedCart state = storedCart) ∧
    (cartReducer 0 initialCart
        (.loadCart { items := [{ product := sampleProductA, quantity := 2, addedAt := 0 }],
                     totalItems := 99, totalPrice := 0 }) =
      { items := [{ product := sampleProductA, quantity := 2, addedAt := 0 }],
        totalItems := 99, totalPrice := 0 }) ∧
    ¬ totalsInvariant
        { items := [{ product := sampleProductA, quantity := 2, addedAt := 0 }],
          totalItems := 99, totalPrice := 0 } := by
  refine ⟨fun _ _ _ => rfl, fun sc st h => ?_, rfl, by decide⟩
  unfold hydrateCart
  rw [if_pos h]
  rfl

theorem c10_witness :
    hydrateCart { items := [{ product := sampleProductA, quantity := 1, addedAt := 0 }],
                  totalItems := 5, totalPrice := 5 } initialCart =
      { items := [{ product := sampleProductA, quantity := 1, addedAt := 0 }],
        totalItems := 5, totalPrice := 5 } :=
  c10_load_cart_verbatim.2.1 _ _ (by decide)

/-! ## Storage lemmas -/

theorem getItem_setItem_self (store : Store) (k : String) (v : Stored) :
    getItem (setItem store k v) k = some v := by
  induction store with
  | nil => simp [setItem, getItem]
  | cons p rest ih =>
    obtain ⟨k2, w⟩ := p
    by_cases h : k2 = k
    · simp [setItem, getItem, h]
    · simp [setItem, getItem, h, ih]

theorem getItem_setItem_other (store : Store) (k k2 : String) (v : Stored) (h : k2 ≠ k) :
    getItem (setItem store k v) k2 = getItem store k2 := by
  induction store with
  | nil =>
    have hne : ¬ (k = k2) := fun hh => h hh.symm
    simp [setItem, getItem, hne]
  | cons p rest ih =>
    obtain ⟨k3, w⟩ := p
    by_cases hk : k3 = k
    · subst hk
      have hne : ¬ (k3 = k2) := fun hh => h (hh.symm)
      simp [setItem, getItem, hne]
    · simp only [setItem, hk, if_false, getItem]
      by_cases hk2 : k3 = k2
      · simp [hk2]
      · simp [hk2, ih]

theorem lookupField_objSet_self (fields : List (String × Json)) (name : String) (v : Json) :
    lookupField (objSet fields name v) name = some v := by
  induction fields with
  | nil => simp [objSet, lookupField]
  | cons p rest ih =>
    obtain ⟨k, w⟩ := p
    by_cases h : k = name
    · simp [objSet, lookupField, h]
    · simp [objSet, lookupField, h, ih]

theorem loadFromStorage_current (store : Store) (key : String) (d default : Json)
    (ts now : Int)
    (h : getItem store key = some (.json (envelopeJson STORAGE_VERSION d ts))) :
    loadFromStorage store key default now = (some d, store) := by
  unfold loadFromStorage
  rw [h]
  rfl

theorem loadFromStorage_v0 (store : Store) (key : String) (d default : Json) (ts now : Int)
    (h : getItem store key = some (.json (envelopeJson 0 d ts))) :
    loadFromStorage store key default now =
      match migrateData d 0 with
      | .error _ => (some default, store)
      | .ok m => (some m, saveToStorage store key m now) := by
  unfold loadFromStorage
  rw [h]
  rfl

theorem loadFromStorage_corrupt (store : Store) (key : String) (default : Json) (now : Int)
    (s : String) (hs : (s == "") = false) (h : getItem store key = some (.corrupt s)) :
    loadFromStorage store key default now =
      match migrateData default 0 with
      | .error _ => (some default, store)
      | .ok m => (some m, saveToStorage store key m now) := by
  unfold loadFromStorage
  rw [h]
  show (if storedFalsy (.corrupt s) = true then _ else _) = _
  rw [show storedFalsy (.corrupt s) = false from hs]
  simp only [Bool.false_eq_true, if_false]
  rfl

theorem migration0_legacy (fields : List (String × Json)) (l : List Json)
    (hcart : lookupField fields "cart" = some (.arr l)) :
    migration0 (.obj fields) = .ok (upgradeLegacyCart fields l) := by
  simp only [migration0]
  rw [hcart]
  rfl

theorem migrateData_zero (d : Json) :
    migrateData d 0 =
      match migration0 d with
      | .ok d2 => .ok d2
      | .error e => .error e := by
  show (match migration0 d with
        | .ok d2 => migrateGo d2 (0 + 1) 0
        | .error e => .error e) = _
  cases migration0 d <;> rfl

theorem migrateGo_neg (n : Nat) (d : Json) :
    migrateGo d (-(n : Int)) (n + 1) =
      match migration0 d with
      | .ok d2 => .ok d2
      | .error e => .error e := by
  induction n generalizing d with
  | zero =>
    simp only [Nat.cast_zero, neg_zero]
    exact migrateData_zero d
  | succ m ih =>
    have h1 : migrations (-((m + 1 : Nat) : Int)) = none := by
      simp [migrations]
      omega
    rw [migrateGo, h1]
    have h2 : -((m + 1 : Nat) : Int) + 1 = -(m : Int) := by push_cast; ring
    rw [h2]
    exact ih d

theorem firstFailure_none {T : Type} (value : T) (rules : List (ValidationRule T))
    (h : ∀ r ∈ rules, r.validate value = true) : firstFailure value rules = none := by
  induction rules with
  | nil => rfl
  | cons r rs ih =>
    simp [firstFailure, h r (by simp), ih (fun x hx => h x (by simp [hx]))]

theorem firstFailure_first {T : Type} (value : T) (pre post : List (ValidationRule T))
    (r : ValidationRule T) (hpre : ∀ p ∈ pre, p.validate value = true)
    (hr : r.validate value = false) :
    firstFailure value (pre ++ r :: post) = some r.message := by
  induction pre with
  | nil => simp [firstFailure, hr]
  | cons p ps ih =>
    simp [firstFailure, hpre p (by simp), ih (fun x hx => hpre x (by simp [hx]))]

/-- Claim C6, counterexample to the literal statement: saving under the
internal version key "monnn_storage_version" is immediately clobbered
by saveToStorage's own trailing version-marker write ("1"), so the
following load returns undefined instead of the saved value. -/
theorem c6_counterexample :
    (loadFromStorage (saveToStorage [] VERSION_KEY (Json.str "x") 0) VERSION_KEY
        Json.null 1).1 ≠ some (Json.str "x") :=
  fun h => Option.noConfusion h

/-- Claim C6 (amended): for every key other than the internal version
key "monnn_storage_version", saving X and then loading the same key
returns X unchanged with no migration and no store change: save wraps X
in an envelope tagged with the current schema version, and load of a
current-version envelope returns its data field as-is. -/
theorem c6_save_load_roundtrip_amended (store : Store) (key : String) (X default : Json)
    (now now2 : Int) (hk : key ≠ VERSION_KEY) :
    loadFromStorage (saveToStorage store key X now) key default now2 =
      (some X, saveToStorage store key X now) := by
  apply loadFromStorage_current _ _ _ _ now
  rw [saveToStorage, getItem_setItem_other _ _ _ _ hk, getItem_setItem_self]

theorem c6_witness :
    loadFromStorage (saveToStorage [] "monnn_cart" (Json.str "x") 7) "monnn_cart"
        Json.null 9 =
      (some (Json.str "x"), saveToStorage [] "monnn_cart" (Json.str "x") 7) :=
  c6_save_load_roundtrip_amended [] "monnn_cart" (Json.str "x") Json.null 7 9 (by decide)

/-- Claim C7, counterexample to the literal statement: loading a corrupt
string builds the synthetic version-0 envelope around the default and
therefore runs the migration chain on the default itself; a default
owning a truthy cart field without items comes back transformed, not
unchanged. -/
theorem c7_counterexample :
    (loadFromStorage [("k", Stored.corrupt "x")] "k"
        (Json.obj [("cart", Json.num 5)]) 0).1 ≠
      some (Json.obj [("cart", Json.num 5)]) := by
  intro h
  rw [show (loadFromStorage [("k", Stored.corrupt "x")] "k"
      (Json.obj [("cart", Json.num 5)]) 0).1 =
      some (Json.obj [("cart", Json.obj [("items", Json.num 5), ("totalItems", Json.num 0),
        ("totalPrice", Json.num 0)])]) from rfl] at h
  simp at h

/-- Claim C7 (amended): load returns the default unmodified when the key
is absent (or holds the empty string); when the stored string fails to
deserialize, load never throws and returns the default passed through
the version-0 migration chain, which is the supplied default itself
whenever the chain leaves it unchanged (in particular for any default
without a truthy cart field lacking items). -/
theorem c7_load_default_amended (store : Store) (key : String) (default : Json) (now : Int) :
    (getItem store key = none → loadFromStorage store key default now = (some default, store)) ∧
    (getItem store key = some (.corrupt "") →
      loadFromStorage store key default now = (some default, store)) ∧
    (∀ s, (s == "") = false → getItem store key = some (.corrupt s) →
      (loadFromStorage store key default now).1 =
        some ((migrateData default 0).toOption.getD default)) ∧
    (∀ s, (s == "") = false → getItem store key = some (.corrupt s) →
      migrateData default 0 = .ok default →
      (loadFromStorage store key default now).1 = some default) := by
  refine ⟨?_, ?_, ?_, ?_⟩
  · intro h
    unfold loadFromStorage
    rw [h]
  · intro h
    unfold loadFromStorage
    rw [h]
    rfl
  · intro s hs h
    rw [loadFromStorage_corrupt store key default now s hs h]
    cases hm : migrateData default 0 <;> simp [Except.toOption]
  · intro s hs h hmig
    rw [loadFromStorage_corrupt store key default now s hs h, hmig]

theorem c7_witness :
    (loadFromStorage [("k", Stored.corrupt "x")] "k"
        (Json.obj [("items", Json.arr [])]) 5).1 =
      some (Json.obj [("items", Json.arr [])]) :=
  (c7_load_default_amended [("k", Stored.corrupt "x")] "k"
    (Json.obj [("items", Json.arr [])]) 5).2.2.2 "x" (by decide) rfl rfl

/-- Claim C8, counterexample to the literal statement: when the loaded
key is the internal version key "monnn_storage_version" itself, the
re-persisting saveToStorage call ends by overwriting that same key with
the bare version marker "1", so the migrated envelope is not stored
under the key. -/
theorem c8_counterexample :
    getItem (loadFromStorage
        [(VERSION_KEY, Stored.json (envelopeJson 0 (Json.obj [("cart", Json.arr [])]) 0))]
        VERSION_KEY Json.null 1).2 VERSION_KEY ≠
      some (Stored.json (envelopeJson STORAGE_VERSION
        (upgradeLegacyCart [("cart", Json.arr [])] []) 1)) := by
  intro h
  rw [show getItem (loadFromStorage
      [(VERSION_KEY, Stored.json (envelopeJson 0 (Json.obj [("cart", Json.arr [])]) 0))]
      VERSION_KEY Json.null 1).2 VERSION_KEY = some (Stored.json (Json.num 1)) from rfl] at h
  simp [envelopeJson, upgradeLegacyCart] at h

/-- Claim C8 (amended): for every key other than the internal version
key, loading a version-0 envelope holding legacy cart-array-shaped data
(an object whose cart field is the raw array) applies the registered
transforms in ascending order — every version below 1 without an entry
passes data through, leaving exactly the version-0 transform — returns
the data upgraded to the current cart shape with items populated from
the legacy array, immediately re-persists the upgraded value under the
same key at the current version, and a second load of that key returns
it directly with no further migration and no store change. -/
theorem c8_migration_v0_amended (store : Store) (key : String)
    (fields : List (String × Json)) (l : List Json) (default : Json) (t now now2 : Int)
    (hk : key ≠ VERSION_KEY)
    (hdata : getItem store key = some (.json (envelopeJson 0 (.obj fields) t)))
    (hcart : lookupField fields "cart" = some (.arr l)) :
    (∀ (d : Json) (v : Int), v ≤ 0 →
      migrateData d v =
        match migration0 d with
        | .ok d2 => .ok d2
        | .error e => .error e) ∧
    loadFromStorage store key default now =
      (some (upgradeLegacyCart fields l),
        saveToStorage store key (upgradeLegacyCart fields l) now) ∧
    jsonField (upgradeLegacyCart fields l) "cart" =
      some (.obj [("items", .arr l), ("totalItems", .num 0), ("totalPrice", .num 0)]) ∧
    getItem (saveToStorage store key (upgradeLegacyCart fields l) now) key =
      some (.json (envelopeJson STORAGE_VERSION (upgradeLegacyCart fields l) now)) ∧
    loadFromStorage (saveToStorage store key (upgradeLegacyCart fields l) now) key
        default now2 =
      (some (upgradeLegacyCart fields l),
        saveToStorage store key (upgradeLegacyCart fields l) now) := by
  have hmig : migrateData (.obj fields) 0 = .ok (upgradeLegacyCart fields l) := by
    rw [migrateData_zero, migration0_legacy fields l hcart]
  have hsave : getItem (saveToStorage store key (upgradeLegacyCart fields l) now) key =
      some (.json (envelopeJson STORAGE_VERSION (upgradeLegacyCart fields l) now)) := by
    rw [saveToStorage, getItem_setItem_other _ _ _ _ hk, getItem_setItem_self]
  refine ⟨?_, ?_, ?_, hsave, ?_⟩
  · intro d v hv
    obtain ⟨n, hn⟩ : ∃ n : Nat, v = -(n : Int) := ⟨(-v).toNat, by omega⟩
    subst hn
    have hsteps : (STORAGE_VERSION - -(n : Int)).toNat = n + 1 := by
      rw [STORAGE_VERSION]; omega
    rw [migrateData, hsteps]
    exact migrateGo_neg n d
  · rw [loadFromStorage_v0 store key (.obj fields) default t now hdata, hmig]
  · rw [upgradeLegacyCart]
    exact lookupField_objSet_self fields "cart" _
  · exact loadFromStorage_current _ _ _ _ now _ hsave

theorem c8_witness :
    loadFromStorage
        [("monnn_cart", Stored.json
          (envelopeJson 0 (Json.obj [("cart", Json.arr [Json.num 7])]) 5))]
        "monnn_cart" Json.null 10 =
      (some (upgradeLegacyCart [("cart", Json.arr [Json.num 7])] [Json.num 7]),
        saveToStorage
          [("monnn_cart", Stored.json
            (envelopeJson 0 (Json.obj [("cart", Json.arr [Json.num 7])]) 5))]
          "monnn_cart" (upgradeLegacyCart [("cart", Json.arr [Json.num 7])] [Json.num 7]) 10) :=
  (c8_migration_v0_amended
    [("monnn_cart", Stored.json
      (envelopeJson 0 (Json.obj [("cart", Json.arr [Json.num 7])]) 5))]
    "monnn_cart" [("cart", Json.arr [Json.num 7])] [Json.num 7]
    Json.null 5 10 0 (by decide) rfl rfl).2.1

/-- Claim C9: validateField returns no error when the field has no rule
list or every rule accepts the value, and otherwise returns exactly the
message of the first rule, in declared order, rejecting the value; its
Option String result can never carry more than one message. -/
theorem c9_validate_field_first_failure {T : Type} (cfg : FieldConfig T) (value : T) :
    (cfg.rules = none → validateField cfg value = none) ∧
    (∀ rules, cfg.rules = some rules →
      ((∀ r ∈ rules, r.validate value = true) → validateField cfg value = none) ∧
      (∀ pre r post, rules = pre ++ r :: post → (∀ p ∈ pre, p.validate value = true) →
        r.validate value = false → validateField cfg value = some r.message)) := by
  constructor
  · intro h
    simp [validateField, h]
  · intro rules hr
    constructor
    · intro hall
      simp only [validateField, hr]
      exact firstFailure_none value rules hall
    · intro pre r post hsplit hpre hfail
      simp only [validateField, hr, hsplit]
      exact firstFailure_first value pre post r hpre hfail

theorem c9_witness : validateField sampleFieldConfig 3 = some "too small" :=
  ((c9_validate_field_first_failure sampleFieldConfig 3).2 [ruleNonNeg, ruleBig] rfl).2
    [ruleNonNeg] ruleBig [] rfl
    (fun p hp => by
      rw [show p = ruleNonNeg from by simpa using hp]
      rfl)
    rfl
